import Mathlib

/-!
Verification of the irontask synchronization core against its sources.

The embedding follows the Go sources:
  * `server/sync.go` (handleSyncPull, handleSyncPush, the wire types),
  * `sql/server/queries.sql` (UpsertProject, UpsertTask, GetProjectsChanged,
    GetTasksChanged),
  * the terminal client in `unnamed/part_019` (Sync, pushChanges, pullChanges)
    over the client store of `unnamed/part_025` (sqlc queries) and
    `internal/db/migrations.go`,
  * `internal/sync/auto.go` (TriggerSync / debouncedSync) and
    `internal/sync/client.go` (CanAutoSync).

Modelling conventions, stated once:
  * All server tables are scoped by `WHERE user_id = $1` in every query the
    handlers run, so the embedding carries the single authenticated user's
    slice of each table; distinct users never interact.
  * `time.Time` values are modelled as `Int` timestamps; the Go zero time is
    `0`, `t.After(u)` is `u < t`, `t.IsZero()` is `t = 0`.  RFC3339 strings on
    the wire are modelled by `TimeField`: a string is either absent (`""`),
    malformed (fails `time.Parse`), or parses to a timestamp.
  * Base64 payloads are modelled by `B64`: `bad` is a string that
    `base64.StdEncoding.DecodeString` rejects, `empty` is the empty string
    (which decodes to zero bytes), `ok d` is a valid encoding of the byte
    payload `d`.  Byte payloads are modelled by `Data`, whose constructors are
    the JSON shapes the clients actually marshal; `json.Unmarshal` with its
    error ignored yields zero values on a shape mismatch, which the
    `metaOf` / `contentOf` projections reproduce.  The base64/JSON codecs
    themselves are not under test here.
-/

namespace Irontask

/-- Byte payloads travelling in `encrypted_data` / `encrypted_content`:
the client marshals either a project-metadata JSON object (name, color) or a
task-content JSON object; `empty` is the zero-length byte string. -/
inductive Data where
  | empty : Data
  | projMeta (name color : String) : Data
  | taskContent (content : String) : Data
deriving DecidableEq, Repr

/-- Wire form of a byte payload: the result of base64 encoding, or a string
that is not valid base64. -/
inductive B64 where
  | empty : B64
  | ok (d : Data) : B64
  | bad : B64
deriving DecidableEq, Repr

/-- Model of `base64.StdEncoding.DecodeString`: fails exactly on invalid
base64. -/
def decode64 : B64 → Option Data
  | .empty => some .empty
  | .ok d => some d
  | .bad => none

/-- Model of `base64.StdEncoding.EncodeToString`. -/
def encode64 : Data → B64
  | .empty => .empty
  | d => .ok d

/-- Model of `json.Unmarshal` into the project-metadata struct with the error
ignored: a shape mismatch leaves the zero values. -/
def metaOf : Data → String × String
  | .projMeta n c => (n, c)
  | _ => ("", "")

/-- Model of `json.Unmarshal` into the task-content struct with the error
ignored. -/
def contentOf : Data → String
  | .taskContent c => c
  | _ => ""

/-- Wire form of an RFC3339 timestamp string. -/
inductive TimeField where
  | missing : TimeField
  | malformed : TimeField
  | stamp (t : Int) : TimeField
deriving DecidableEq, Repr

/-- Model of the `clientTime` computation in handleSyncPush
(server/sync.go:175-182): the zero `time.Time` when the string is empty or
`time.Parse` fails, the parsed instant otherwise. -/
def clientTimeOf : TimeField → Int
  | .missing => 0
  | .malformed => 0
  | .stamp t => t

/-- SyncItem from server/sync.go:17-32 (the identical struct appears in the
client, unnamed/part_019:20-35). -/
structure SyncItem where
  id : String := ""
  clientId : String := ""
  type : String := ""
  slug : String := ""
  name : String := ""
  projectId : String := ""
  encryptedData : B64 := .empty
  encryptedContent : B64 := .empty
  status : String := ""
  priority : Int := 0
  dueDate : String := ""
  syncVersion : Int := 0
  deleted : Bool := false
  clientUpdatedAt : TimeField := .missing
deriving DecidableEq, Repr

/-- ConflictItem from server/sync.go:47-53. -/
structure ConflictItem where
  clientId : String
  type : String
  serverVersion : Int
  serverData : SyncItem
  clientData : SyncItem
deriving DecidableEq, Repr

/-- SyncPullResponse from server/sync.go:35-38. -/
structure SyncPullResponse where
  items : List SyncItem
  syncVersion : Int
deriving DecidableEq, Repr

/-- SyncPushResponse from server/sync.go:56-59. -/
structure SyncPushResponse where
  updated : List SyncItem
  conflicts : List ConflictItem
deriving DecidableEq, Repr

/-- One row of `irontask.projects` for the authenticated user
(sql/server/schema.sql).  `clientUpdatedAt` is the nullable
`client_updated_at` column used for conflict detection. -/
structure ServerProject where
  clientId : String
  slug : String
  name : String
  color : Option String := none
  encryptedData : Data := .empty
  syncVersion : Int := 0
  deleted : Bool := false
  clientUpdatedAt : Option Int := none
deriving DecidableEq, Repr

/-- One row of `irontask.tasks` for the authenticated user
(sql/server/schema.sql).  `status` and `dueDate` are nullable columns read
through `sql.NullString` in the handlers. -/
structure ServerTask where
  clientId : String
  projectId : String
  encryptedContent : Data := .empty
  status : Option String := none
  priority : Int := 0
  dueDate : Option String := none
  syncVersion : Int := 0
  deleted : Bool := false
  clientUpdatedAt : Option Int := none
deriving DecidableEq, Repr

/-- The authenticated user's slice of the server store. -/
structure ServerState where
  projects : List ServerProject
  tasks : List ServerTask
deriving DecidableEq, Repr

def emptyServer : ServerState := ⟨[], []⟩

/-- Model of `(SELECT COALESCE(MAX(sync_version), 0) + 1 FROM ... WHERE
user_id = $1)` minus the `+ 1`: the maximum over the listed versions, or `0`
when the table slice is empty. -/
def sqlMaxVersion : List Int → Int
  | [] => 0
  | v :: rest => rest.foldl max v

/-- Parameters of UpsertProject (sql/server/queries.sql:46-58), as passed by
handleSyncPush (server/sync.go:287-296). -/
structure UpsertProjectParams where
  clientId : String
  slug : String
  name : String
  color : Option String
  encryptedData : Data
  deleted : Bool
  clientUpdatedAt : Option Int
deriving DecidableEq, Repr

/-- Violation test for the `UNIQUE(user_id, slug)` constraint on projects
(sql/server/schema.sql:52, migrate_to_slug_and_status.sql:20): the upsert's
`ON CONFLICT` clause targets only `(user_id, client_id)`, so writing slug
`p.slug` fails whenever another row of the same user (any other client id,
live or deleted) already holds that slug - on insert and on `DO UPDATE`
alike. -/
def slugCollision (s : ServerState) (p : UpsertProjectParams) : Bool :=
  s.projects.any (fun r => ¬(r.clientId = p.clientId) ∧ r.slug = p.slug)

/-- UpsertProject (sql/server/queries.sql:46-58): insert or overwrite the
`(user, client_id)` row, assigning
`COALESCE(MAX(sync_version), 0) + 1` computed over the user's project rows,
and return the assigned version.  When the written slug collides with
another project of the user, the statement violates `UNIQUE(user_id, slug)`
and fails (`none`), changing nothing - the caller in handleSyncPush logs and
skips the item (server/sync.go:297-304).

Modelled from the spec: the copy of the query under sql/server/queries.sql
does not mention the `client_updated_at` column, while the handler passes a
`ClientUpdatedAt` parameter whose generated query is not among the sources;
the spec (section 4.2) states that `client_updated_at` is stored from the
request, so the upsert stores it here.  The `DO UPDATE` branch does not set
`color` or `created_at`, matching the query. -/
def serverUpsertProject (s : ServerState) (p : UpsertProjectParams) :
    Option (ServerState × Int) :=
  if slugCollision s p then none
  else
    let v := sqlMaxVersion (s.projects.map (·.syncVersion)) + 1
    if s.projects.any (·.clientId = p.clientId) then
      some ({ s with projects := s.projects.map (fun r =>
          if r.clientId = p.clientId then
            { r with
              slug := p.slug
              name := p.name
              encryptedData := p.encryptedData
              deleted := p.deleted
              syncVersion := v
              clientUpdatedAt := p.clientUpdatedAt }
          else r) }, v)
    else
      some ({ s with projects := s.projects ++
          [{ clientId := p.clientId
             slug := p.slug
             name := p.name
             color := p.color
             encryptedData := p.encryptedData
             syncVersion := v
             deleted := p.deleted
             clientUpdatedAt := p.clientUpdatedAt }] }, v)

/-- Parameters of UpsertTask (sql/server/queries.sql:65-79), as passed by
handleSyncPush (server/sync.go:324-334). -/
structure UpsertTaskParams where
  clientId : String
  projectId : String
  encryptedContent : Data
  status : Option String
  priority : Int
  dueDate : Option String
  deleted : Bool
  clientUpdatedAt : Option Int
deriving DecidableEq, Repr

/-- UpsertTask (sql/server/queries.sql:65-79), with the version drawn from
`COALESCE(MAX(sync_version), 0) + 1` over the user's task rows.  The tasks
table carries only the `UNIQUE(user_id, client_id)` constraint
(sql/server/schema.sql:76), which is exactly the upsert's `ON CONFLICT`
target, so this statement has no constraint-failure path.  The
`client_updated_at` storage is modelled from the spec exactly as for
`serverUpsertProject`. -/
def serverUpsertTask (s : ServerState) (p : UpsertTaskParams) :
    ServerState × Int :=
  let v := sqlMaxVersion (s.tasks.map (·.syncVersion)) + 1
  if s.tasks.any (·.clientId = p.clientId) then
    ({ s with tasks := s.tasks.map (fun r =>
        if r.clientId = p.clientId then
          { r with
            projectId := p.projectId
            encryptedContent := p.encryptedContent
            status := p.status
            priority := p.priority
            dueDate := p.dueDate
            deleted := p.deleted
            syncVersion := v
            clientUpdatedAt := p.clientUpdatedAt }
        else r) }, v)
  else
    ({ s with tasks := s.tasks ++
        [{ clientId := p.clientId
           projectId := p.projectId
           encryptedContent := p.encryptedContent
           status := p.status
           priority := p.priority
           dueDate := p.dueDate
           syncVersion := v
           deleted := p.deleted
           clientUpdatedAt := p.clientUpdatedAt }] }, v)

/-- Modelled from the spec: the SQL for GetTaskForConflict is not among the
sources (only its caller in server/sync.go is); per the spec (section 4.2,
"returns current server state used by the push handler to decide whether the
incoming write is stale", and section 4.3, "compare server's stored
client_updated_at with the request's client_updated_at"), it returns the
user's task row for the client id, and the timestamp the handler reads from
it (`current.UpdatedAt` in server/sync.go:196-199) is the row's stored
`client_updated_at`. -/
def getTaskForConflict (s : ServerState) (clientId : String) :
    Option ServerTask :=
  s.tasks.find? (·.clientId = clientId)

/-- Modelled from the spec: GetProjectForConflict, exactly as
`getTaskForConflict`. -/
def getProjectForConflict (s : ServerState) (clientId : String) :
    Option ServerProject :=
  s.projects.find? (·.clientId = clientId)

/-- The full-server-data SyncItem built in the task conflict branch
(server/sync.go:206-217): `sql.Null` wrappers read through `.String` /
`.Int32` yield zero values when invalid. -/
def taskConflictData (clientId : String) (t : ServerTask) : SyncItem :=
  { id := clientId
    clientId := clientId
    type := "task"
    projectId := t.projectId
    encryptedContent := encode64 t.encryptedContent
    status := t.status.getD ""
    priority := t.priority
    dueDate := t.dueDate.getD ""
    syncVersion := t.syncVersion
    deleted := t.deleted }

/-- The full-server-data SyncItem built in the project conflict branch
(server/sync.go:232-241). -/
def projectConflictData (clientId : String) (p : ServerProject) : SyncItem :=
  { id := clientId
    clientId := clientId
    type := "project"
    slug := p.slug
    name := p.name
    encryptedData := encode64 p.encryptedData
    syncVersion := p.syncVersion
    deleted := p.deleted }

/-- Conflict detection for one push item (server/sync.go:184-245): a conflict
is declared when the row exists, its stored timestamp is non-NULL, the
request timestamp is a nonzero parsed time, and the stored timestamp is
strictly after the request timestamp; the emitted ConflictItem carries the
current row. -/
def conflictOf (s : ServerState) (item : SyncItem) : Option ConflictItem :=
  let ct := clientTimeOf item.clientUpdatedAt
  if item.type = "task" then
    match getTaskForConflict s item.clientId with
    | some current =>
      match current.clientUpdatedAt with
      | some serverUpdatedAt =>
        if ct ≠ 0 ∧ ct < serverUpdatedAt then
          some { clientId := item.clientId
                 type := item.type
                 serverVersion := current.syncVersion
                 serverData := taskConflictData item.clientId current
                 clientData := item }
        else none
      | none => none
    | none => none
  else if item.type = "project" then
    match getProjectForConflict s item.clientId with
    | some current =>
      match current.clientUpdatedAt with
      | some serverUpdatedAt =>
        if ct ≠ 0 ∧ ct < serverUpdatedAt then
          some { clientId := item.clientId
                 type := item.type
                 serverVersion := current.syncVersion
                 serverData := projectConflictData item.clientId current
                 clientData := item }
        else none
      | none => none
    | none => none
  else none

/-- Upsert parameters the push loop builds for an accepted project item
(server/sync.go:272-296): an empty slug falls back to the client id, an
empty name to the (possibly substituted) slug, `Color` is the NullString of
the empty string, and `ClientUpdatedAt` is NULL exactly when the parsed
client time is zero. -/
def projectUpsertParamsOf (item : SyncItem) (data : Data) :
    UpsertProjectParams :=
  let ct := clientTimeOf item.clientUpdatedAt
  let slug := if item.slug = "" then item.clientId else item.slug
  { clientId := item.clientId
    slug := slug
    name := if item.name = "" then slug else item.name
    color := some ""
    encryptedData := data
    deleted := item.deleted
    clientUpdatedAt := if ct ≠ 0 then some ct else none }

/-- Upsert parameters the push loop builds for an accepted task item
(server/sync.go:306-334): an empty status falls back to "process", an empty
due date stores NULL. -/
def taskUpsertParamsOf (item : SyncItem) (contentData : Data) :
    UpsertTaskParams :=
  let ct := clientTimeOf item.clientUpdatedAt
  { clientId := item.clientId
    projectId := item.projectId
    encryptedContent := contentData
    status := some (if item.status = "" then "process" else item.status)
    priority := item.priority
    dueDate := if item.dueDate ≠ "" then some item.dueDate else none
    deleted := item.deleted
    clientUpdatedAt := if ct ≠ 0 then some ct else none }

/-- Processing of one item of the push loop (server/sync.go:172-345): a
conflicting item is recorded and skipped; otherwise a project or task item
whose payload decodes is upserted with the slug/name/status fallbacks and
appended to `updated` carrying the assigned version; an item with an
undecodable payload or an unrecognized type is skipped, and so is a project
item whose upsert fails (slug uniqueness violation) - the handler logs the
error and moves on without recording the item (server/sync.go:297-304). -/
def pushStep (acc : ServerState × SyncPushResponse) (item : SyncItem) :
    ServerState × SyncPushResponse :=
  let s := acc.1
  let out := acc.2
  match conflictOf s item with
  | some c => (s, { out with conflicts := out.conflicts ++ [c] })
  | none =>
    if item.type = "project" then
      match decode64 item.encryptedData with
      | none => (s, out)
      | some data =>
        match serverUpsertProject s (projectUpsertParamsOf item data) with
        | none => (s, out)
        | some r =>
          (r.1, { out with updated := out.updated ++ [{ item with syncVersion := r.2 }] })
    else if item.type = "task" then
      match decode64 item.encryptedContent with
      | none => (s, out)
      | some contentData =>
        let r := serverUpsertTask s (taskUpsertParamsOf item contentData)
        (r.1, { out with updated := out.updated ++ [{ item with syncVersion := r.2 }] })
    else (s, out)

/-- handleSyncPush (server/sync.go:153-356): fold the per-item step over the
request items in order. -/
def handleSyncPush (s : ServerState) (items : List SyncItem) :
    ServerState × SyncPushResponse :=
  items.foldl pushStep (s, { updated := [], conflicts := [] })

/-- Wire item for one changed project row (server/sync.go:87-98 over
GetProjectsChanged). -/
def pullProjectItem (p : ServerProject) : SyncItem :=
  { id := p.clientId
    clientId := p.clientId
    type := "project"
    slug := p.slug
    name := p.name
    encryptedData := encode64 p.encryptedData
    syncVersion := p.syncVersion
    deleted := p.deleted }

/-- Wire item for one changed task row (server/sync.go:110-132 over
GetTasksChanged); a NULL status is sent as "process", a NULL due date as the
empty string. -/
def pullTaskItem (t : ServerTask) : SyncItem :=
  { id := t.clientId
    clientId := t.clientId
    type := "task"
    projectId := t.projectId
    encryptedContent := encode64 t.encryptedContent
    status := t.status.getD "process"
    priority := t.priority
    dueDate := t.dueDate.getD ""
    syncVersion := t.syncVersion
    deleted := t.deleted }

/-- handleSyncPull (server/sync.go:62-151) at a given parsed `lastVersion`:
the changed-project rows (`sync_version > $2`, sql/server/queries.sql:60-63),
then the changed-task rows (sql/server/queries.sql:81-84), then the running
maximum version starting from `lastVersion`. -/
def handleSyncPull (s : ServerState) (lastVersion : Int) : SyncPullResponse :=
  let items :=
    (s.projects.filter (lastVersion < ·.syncVersion)).map pullProjectItem ++
    (s.tasks.filter (lastVersion < ·.syncVersion)).map pullTaskItem
  let maxVersion := items.foldl
    (fun m item => if m < item.syncVersion then item.syncVersion else m)
    lastVersion
  { items := items, syncVersion := maxVersion }

/-- Error kind of Go's `strconv` parse functions. -/
inductive ParseErr where
  | ok : ParseErr
  | synErr : ParseErr
  | range : ParseErr
deriving DecidableEq, Repr

/-- Largest `uint64` value, the `maxVal` of Go's `ParseUint(s, 10, 64)`. -/
def maxUint64 : Nat := 18446744073709551615

/-- Go's overflow cutoff for `ParseUint(s, 10, 64)`: `maxVal/10 + 1`. -/
def uintCutoff : Nat := 1844674407370955162

/-- Digit value of a character as in Go's `parseUint` loop (strconv/atoi.go):
decimal digits, then letters as values 10 and up. -/
def digitVal (c : Char) : Option Nat :=
  if '0' ≤ c ∧ c ≤ '9' then some (c.toNat - '0'.toNat)
  else if 'a' ≤ c ∧ c ≤ 'z' then some (c.toNat - 'a'.toNat + 10)
  else if 'A' ≤ c ∧ c ≤ 'Z' then some (c.toNat - 'A'.toNat + 10)
  else none

/-- Digit loop of Go's `ParseUint(s, 10, 64)`: an invalid digit returns
`(0, synErr)`; an overflow returns `(maxUint64, range)` immediately without
reading further characters. -/
def goParseUintLoop : List Char → Nat → Nat × ParseErr
  | [], n => (n, .ok)
  | c :: rest, n =>
    match digitVal c with
    | none => (0, .synErr)
    | some d =>
      if 10 ≤ d then (0, .synErr)
      else if uintCutoff ≤ n then (maxUint64, .range)
      else
        let n1 := n * 10 + d
        if maxUint64 < n1 then (maxUint64, .range)
        else goParseUintLoop rest n1

/-- Go's `strconv.ParseUint(s, 10, 64)` on a character list; the empty string
is a syntax error. -/
def goParseUint64 (s : List Char) : Nat × ParseErr :=
  match s with
  | [] => (0, .synErr)
  | _ => goParseUintLoop s 0

/-- Go's `int64` cutoff in `ParseInt(s, 10, 64)`: `1 << 63`. -/
def int64Cutoff : Nat := 9223372036854775808

/-- Sign handling at the head of Go's `ParseInt`: strip a leading `+` or
`-`, remembering negativity. -/
def signSplit (c : Char) (rest : List Char) : Bool × List Char :=
  if c = '+' then (false, rest)
  else if c = '-' then (true, rest)
  else (false, c :: rest)

/-- Signed-range step of Go's `ParseInt(s, 10, 64)` after `ParseUint`: a
syntax error yields value `0`; a magnitude at or past the `int64` cutoff is
clamped to `9223372036854775807` (or `-9223372036854775808` when negative)
with a range error; otherwise the signed value passes through with
ParseUint's error. -/
def int64Clamp (neg : Bool) (r : Nat × ParseErr) : Int × ParseErr :=
  if r.2 = .synErr then (0, .synErr)
  else if ¬neg ∧ int64Cutoff ≤ r.1 then ((int64Cutoff : Int) - 1, .range)
  else if neg ∧ int64Cutoff < r.1 then (-(int64Cutoff : Int), .range)
  else ((if neg then -(r.1 : Int) else (r.1 : Int)), r.2)

/-- Go's `strconv.ParseInt(s, 10, 64)` on the character list: empty input is
a syntax error valued `0`; otherwise optional sign, `ParseUint`, and the
signed clamp. -/
def goParseInt64L : List Char → Int × ParseErr
  | [] => (0, .synErr)
  | c :: rest =>
    int64Clamp (signSplit c rest).1 (goParseUint64 (signSplit c rest).2)

/-- Go's `strconv.ParseInt(s, 10, 64)`, value and error kind. -/
def goParseInt64E (s : String) : Int × ParseErr :=
  goParseInt64L s.toList

/-- Value Go's `ParseInt(s, 10, 64)` returns, with the error discarded as in
`val, _ := strconv.ParseInt(v, 10, 64)` (server/sync.go:72). -/
def goParseInt64 (s : String) : Int :=
  (goParseInt64E s).1

/-- Since-parameter handling of handleSyncPull (server/sync.go:70-74): the
query parameter is the empty string when absent; a non-empty value is parsed
with the error discarded. -/
def parseSinceParam (v : String) : Int :=
  if v = "" then 0 else goParseInt64 v

/-- handleSyncPull as reached over HTTP, from the raw `since` query
parameter. -/
def handleSyncPullQ (s : ServerState) (v : String) : SyncPullResponse :=
  handleSyncPull s (parseSinceParam v)

/-- One row of the terminal client's `projects` table
(internal/db/migrations.go:23-41): TEXT timestamps are carried as
`TimeField`, `deleted_at` is NULL for live rows, and `sync_version` NULL
means "needs sync". -/
structure LocalProject where
  id : String
  slug : String
  name : String
  color : Option String := none
  archived : Bool := false
  createdAt : TimeField := .missing
  updatedAt : TimeField := .missing
  deletedAt : Option TimeField := none
  syncVersion : Option Int := none
deriving DecidableEq, Repr

/-- One row of the terminal client's `tasks` table
(internal/db/migrations.go:43-61). -/
structure LocalTask where
  id : String
  projectId : String
  content : String := ""
  status : Option String := none
  priority : Int := 0
  dueDate : Option String := none
  tags : Option String := none
  createdAt : TimeField := .missing
  updatedAt : TimeField := .missing
  deletedAt : Option TimeField := none
  syncVersion : Option Int := none
deriving DecidableEq, Repr

/-- The terminal client's local store. -/
structure LocalStore where
  projects : List LocalProject
  tasks : List LocalTask
deriving DecidableEq, Repr

def emptyLocal : LocalStore := ⟨[], []⟩

/-- GetProject (unnamed/part_025:6-8): the row with the id whose
`deleted_at IS NULL`. -/
def getProject (st : LocalStore) (id : String) : Option LocalProject :=
  st.projects.find? (fun p => p.id = id ∧ p.deletedAt.isNone)

/-- GetTask (unnamed/part_025:43-45). -/
def getTask (st : LocalStore) (id : String) : Option LocalTask :=
  st.tasks.find? (fun t => t.id = id ∧ t.deletedAt.isNone)

/-- Parameters of CreateProject (unnamed/part_025:1-4) as passed by
pullChanges (unnamed/part_019:352-359); the generated struct's `Archived` and
`Tags` style zero values are the column defaults. -/
structure CreateProjectParams where
  id : String
  slug : String
  name : String
  color : Option String
  createdAt : TimeField
  updatedAt : TimeField
deriving DecidableEq, Repr

/-- CreateProject (unnamed/part_025:1-4): a plain INSERT leaving
`sync_version` NULL; a primary-key violation (the id already present, live or
soft-deleted) makes the statement fail without mutating, and every caller in
the sync path ignores the error. -/
def createProject (st : LocalStore) (p : CreateProjectParams) : LocalStore :=
  if st.projects.any (·.id = p.id) then st
  else
    { st with projects := st.projects ++
        [{ id := p.id
           slug := p.slug
           name := p.name
           color := p.color
           createdAt := p.createdAt
           updatedAt := p.updatedAt }] }

/-- Parameters of CreateTask (unnamed/part_025:38-41) as passed by
pullChanges (unnamed/part_019:402-411); `Tags` is not set by the caller, so
its NullString zero value stores NULL. -/
structure CreateTaskParams where
  id : String
  projectId : String
  content : String
  status : Option String
  priority : Int
  dueDate : Option String
  createdAt : TimeField
  updatedAt : TimeField
deriving DecidableEq, Repr

/-- CreateTask (unnamed/part_025:38-41), as `createProject`. -/
def createTask (st : LocalStore) (p : CreateTaskParams) : LocalStore :=
  if st.tasks.any (·.id = p.id) then st
  else
    { st with tasks := st.tasks ++
        [{ id := p.id
           projectId := p.projectId
           content := p.content
           status := p.status
           priority := p.priority
           dueDate := p.dueDate
           createdAt := p.createdAt
           updatedAt := p.updatedAt }] }

/-- Parameters of OverwriteProject (unnamed/part_025:27-30). -/
structure OverwriteProjectParams where
  id : String
  slug : String
  name : String
  color : Option String
  updatedAt : TimeField
  syncVersion : Option Int
deriving DecidableEq, Repr

/-- OverwriteProject (unnamed/part_025:27-30): UPDATE of slug, name, color,
updated_at and sync_version on the id; `deleted_at` and `created_at` are left
as they are. -/
def overwriteProject (st : LocalStore) (p : OverwriteProjectParams) :
    LocalStore :=
  { st with projects := st.projects.map (fun r =>
      if r.id = p.id then
        { r with
          slug := p.slug
          name := p.name
          color := p.color
          updatedAt := p.updatedAt
          syncVersion := p.syncVersion }
      else r) }

/-- Parameters of OverwriteTask (unnamed/part_025:32-35); pullChanges
(unnamed/part_019:420-429) does not set `Tags`, storing NULL. -/
structure OverwriteTaskParams where
  id : String
  projectId : String
  content : String
  status : Option String
  priority : Int
  dueDate : Option String
  tags : Option String
  updatedAt : TimeField
  syncVersion : Option Int
deriving DecidableEq, Repr

/-- OverwriteTask (unnamed/part_025:32-35): UPDATE of project_id, content,
status, priority, due_date, tags, updated_at and sync_version on the id;
`deleted_at` and `created_at` are left as they are. -/
def overwriteTask (st : LocalStore) (p : OverwriteTaskParams) : LocalStore :=
  { st with tasks := st.tasks.map (fun r =>
      if r.id = p.id then
        { r with
          projectId := p.projectId
          content := p.content
          status := p.status
          priority := p.priority
          dueDate := p.dueDate
          tags := p.tags
          updatedAt := p.updatedAt
          syncVersion := p.syncVersion }
      else r) }

/-- UpdateProjectSyncVersion (unnamed/part_025:102-103). -/
def updateProjectSyncVersion (st : LocalStore) (id : String) (v : Int) :
    LocalStore :=
  { st with projects := st.projects.map (fun r =>
      if r.id = id then { r with syncVersion := some v } else r) }

/-- UpdateTaskSyncVersion (unnamed/part_025:105-106). -/
def updateTaskSyncVersion (st : LocalStore) (id : String) (v : Int) :
    LocalStore :=
  { st with tasks := st.tasks.map (fun r =>
      if r.id = id then { r with syncVersion := some v } else r) }

/-- GetProjectsToSync (unnamed/part_025:90-94): rows with
`sync_version IS NULL`.  The `ORDER BY updated_at` is dropped: no claim here
depends on the order of the pushed batch. -/
def getProjectsToSync (st : LocalStore) : List LocalProject :=
  st.projects.filter (·.syncVersion.isNone)

/-- GetTasksToSync (unnamed/part_025:96-100). -/
def getTasksToSync (st : LocalStore) : List LocalTask :=
  st.tasks.filter (·.syncVersion.isNone)

/-- Wire item pushChanges builds for one dirty project
(unnamed/part_019:148-170): the encrypted_data blob is the marshalled
name/color object, `SyncVersion` reads the NullInt64 through `.Int64` (zero
when NULL), `Deleted` is `p.DeletedAt.Valid`, and `ClientUpdatedAt` is the
row's `updated_at` string. -/
def pushProjectItem (p : LocalProject) : SyncItem :=
  { clientId := p.id
    type := "project"
    slug := p.slug
    name := p.name
    encryptedData := encode64 (.projMeta p.name (p.color.getD ""))
    syncVersion := p.syncVersion.getD 0
    deleted := p.deletedAt.isSome
    clientUpdatedAt := p.updatedAt }

/-- Wire item pushChanges builds for one dirty task
(unnamed/part_019:174-201): status defaults to "process" when NULL, the
content blob is the marshalled content object. -/
def pushTaskItem (t : LocalTask) : SyncItem :=
  { clientId := t.id
    type := "task"
    projectId := t.projectId
    encryptedContent := encode64 (.taskContent t.content)
    status := t.status.getD "process"
    priority := t.priority
    dueDate := t.dueDate.getD ""
    syncVersion := t.syncVersion.getD 0
    deleted := t.deletedAt.isSome
    clientUpdatedAt := t.updatedAt }

/-- The batch pushChanges serializes: dirty projects, then dirty tasks
(unnamed/part_019:140-201). -/
def pushBatch (st : LocalStore) : List SyncItem :=
  (getProjectsToSync st).map pushProjectItem ++
  (getTasksToSync st).map pushTaskItem

/-- Acknowledgement loop of pushChanges (unnamed/part_019:253-269): for every
item of the response's `updated`, set the local row's sync_version to the
server-assigned value. -/
def applyPushAck (st : LocalStore) (updated : List SyncItem) : LocalStore :=
  updated.foldl (fun acc item =>
    if item.type = "project" then
      updateProjectSyncVersion acc item.clientId item.syncVersion
    else if item.type = "task" then
      updateTaskSyncVersion acc item.clientId item.syncVersion
    else acc) st

/-- pushChanges (unnamed/part_019:138-272) with the HTTP hop replaced by the
embedded server handler: an empty batch performs no request; otherwise the
batch is pushed, the acknowledged versions are applied, and the count of
updated items plus the conflicts are returned. -/
def pushChanges (st : LocalStore) (server : ServerState) :
    LocalStore × ServerState × Nat × List ConflictItem :=
  let items := pushBatch st
  if items.isEmpty then (st, server, 0, [])
  else
    let r := handleSyncPush server items
    (applyPushAck st r.2.updated, r.1, r.2.updated.length, r.2.conflicts)

/-- Application of one pulled item (unnamed/part_019:316-432): a project item
recovers name/color from the blob only when `Name` is empty, falls back to
the client id for an empty slug, and is created (then stamped with the server
version) when `GetProject` finds no live row, or overwritten otherwise; a
task item decodes its content blob, defaults status to "process", and is
created or overwritten the same way.  `now` stands for `time.Now()` at the
call. -/
def applyPulledItem (now : TimeField) (st : LocalStore) (item : SyncItem) :
    LocalStore :=
  if item.type = "project" then
    let slug := if item.slug = "" then item.clientId else item.slug
    let nameColor :=
      if item.name = "" then
        match decode64 item.encryptedData with
        | some d =>
          let m := metaOf d
          (m.1, if m.2 ≠ "" then m.2 else "#4ECDC4")
        | none => (item.name, "#4ECDC4")
      else (item.name, "#4ECDC4")
    match getProject st item.clientId with
    | none =>
      let st1 := createProject st
        { id := item.clientId
          slug := slug
          name := nameColor.1
          color := some nameColor.2
          createdAt := now
          updatedAt := now }
      updateProjectSyncVersion st1 item.clientId item.syncVersion
    | some _ =>
      overwriteProject st
        { id := item.clientId
          slug := slug
          name := nameColor.1
          color := some nameColor.2
          updatedAt := now
          syncVersion := some item.syncVersion }
  else if item.type = "task" then
    let content :=
      if item.encryptedContent ≠ .empty then
        match decode64 item.encryptedContent with
        | some d => contentOf d
        | none => ""
      else ""
    let status := if item.status = "" then "process" else item.status
    match getTask st item.clientId with
    | none =>
      let st1 := createTask st
        { id := item.clientId
          projectId := item.projectId
          content := content
          status := some status
          priority := item.priority
          dueDate := if item.dueDate ≠ "" then some item.dueDate else none
          createdAt := now
          updatedAt := now }
      updateTaskSyncVersion st1 item.clientId item.syncVersion
    | some tExisting =>
      overwriteTask st
        { id := tExisting.id
          projectId := item.projectId
          content := content
          status := some status
          priority := item.priority
          dueDate := if item.dueDate ≠ "" then some item.dueDate else none
          tags := none
          updatedAt := now
          syncVersion := some item.syncVersion }
  else st

/-- pullChanges (unnamed/part_019:275-445) with the HTTP hop replaced by the
embedded server handler: every returned item is applied in order, then
`LastSync` advances to the response version when that is larger.  Returns the
new store, the new `LastSync` and the pulled count. -/
def pullChanges (st : LocalStore) (server : ServerState) (lastSync : Int)
    (now : TimeField) : LocalStore × Int × Nat :=
  let resp := handleSyncPull server lastSync
  let st1 := resp.items.foldl (applyPulledItem now) st
  let last1 := if lastSync < resp.syncVersion then resp.syncVersion else lastSync
  (st1, last1, resp.items.length)

/-- Result of one client sync (unnamed/part_019:59-63). -/
structure SyncResult where
  pushed : Nat
  pulled : Nat
  conflicts : List ConflictItem
deriving DecidableEq, Repr

/-- Sync in the default merge mode (unnamed/part_019:112-134), on the
successful path: push the dirty rows, then pull since `LastSync`, then mark
the first sync as completed.  Returns the final local store, server state,
`LastSync`, `HasSyncedOnce`, and the sync result. -/
def syncMerge (st : LocalStore) (server : ServerState) (lastSync : Int)
    (now : TimeField) : LocalStore × ServerState × Int × Bool × SyncResult :=
  let push := pushChanges st server
  let pull := pullChanges push.1 push.2.1 lastSync now
  (pull.1, push.2.1, pull.2.1, true, ⟨push.2.2.1, pull.2.2, push.2.2.2⟩)

/-- Inbox seeding (internal/db/migrations.go:38-40 and 81-83):
`INSERT OR IGNORE` of the inbox row, listing no `sync_version` column, on a
table whose `sync_version` has no default, so the seeded row's version is
NULL; `datetime('now')` is the parameter `now`. -/
def seedInbox (now : TimeField) (st : LocalStore) : LocalStore :=
  if st.projects.any (·.id = "inbox") then st
  else
    { st with projects := st.projects ++
        [{ id := "inbox"
           slug := "inbox"
           name := "Inbox"
           color := some "#6C757D"
           createdAt := now
           updatedAt := now }] }

/-- Version reset of migrationServerSideSyncVersion
(internal/db/migrations.go:74-79): rows with `sync_version` 0 or NULL become
NULL. -/
def resetZeroVersions (st : LocalStore) : LocalStore :=
  { projects := st.projects.map (fun p =>
      if p.syncVersion = some 0 ∨ p.syncVersion = none then
        { p with syncVersion := none } else p)
    tasks := st.tasks.map (fun t =>
      if t.syncVersion = some 0 ∨ t.syncVersion = none then
        { t with syncVersion := none } else t) }

/-- Local migration pipeline as run on first open
(internal/db/migrations.go:6-21): table creation with the inbox seed, then
the server-side-sync-version migration (version reset and a second idempotent
seed). -/
def migrateLocal (now : TimeField) (st : LocalStore) : LocalStore :=
  seedInbox now (resetZeroVersions (seedInbox now st))

/-- Client configuration flags read by CanAutoSync
(internal/sync/client.go:100-108): `IsLoggedIn` is token presence,
`HasSyncedOnce` gates auto-sync until the first full sync. -/
structure ClientFlags where
  loggedIn : Bool
  hasSyncedOnce : Bool
deriving DecidableEq, Repr

/-- CanAutoSync (internal/sync/client.go:105-108). -/
def canAutoSync (f : ClientFlags) : Bool :=
  f.loggedIn && f.hasSyncedOnce

/-- Scheduler state of AutoSync (internal/sync/auto.go:107-120) as seen by
TriggerSync: the `pending` flag, plus a ghost counter of how many
`go a.debouncedSync()` one-shot debounce timers have been started.  All
accesses to `pending` in the source are serialized by `a.mu`, so the trigger
calls form a sequence of atomic steps. -/
structure AutoSyncState where
  pending : Bool
  timersStarted : Nat
deriving DecidableEq, Repr

/-- TriggerSync (internal/sync/auto.go:241-256): a no-op unless CanAutoSync;
otherwise, when `pending` is false it is set and one debounce timer is
started, and when `pending` is already true nothing happens. -/
def triggerSync (f : ClientFlags) (a : AutoSyncState) : AutoSyncState :=
  if ¬canAutoSync f then a
  else if a.pending then a
  else { pending := true, timersStarted := a.timersStarted + 1 }

/-- Expiry of the debounce timer (internal/sync/auto.go:258-272): `pending`
is cleared and the merge sync runs; within one debounce window (a span
shorter than `debounceTime` after the first trigger) this step never fires,
so a window consists of `triggerSync` steps only. -/
def debounceFire (a : AutoSyncState) : AutoSyncState :=
  { a with pending := false }

/-- Reformulation of the spec sentence "server's stored client_updated_at"
for one push item: `none` when no row of the item's kind exists for the
client id, `some o` when the row exists and its stored `client_updated_at`
column holds `o`. -/
def serverStoredCUA (s : ServerState) (item : SyncItem) :
    Option (Option Int) :=
  if item.type = "task" then
    (getTaskForConflict s item.clientId).map (·.clientUpdatedAt)
  else if item.type = "project" then
    (getProjectForConflict s item.clientId).map (·.clientUpdatedAt)
  else none

lemma le_foldl_max (l : List Int) (a : Int) : a ≤ l.foldl max a := by
  induction l generalizing a with
  | nil => exact le_refl a
  | cons x t ih => exact le_trans (le_max_left a x) (ih (max a x))

lemma mem_le_foldl_max (l : List Int) (a x : Int) (hx : x ∈ l) :
    x ≤ l.foldl max a := by
  induction l generalizing a with
  | nil => cases hx
  | cons y t ih =>
    rcases List.mem_cons.mp hx with h | h
    · exact le_trans (h ▸ le_max_right a y) (le_foldl_max t (max a y))
    · exact ih (max a y) h

lemma foldl_max_eq_init_or_mem (l : List Int) (a : Int) :
    l.foldl max a = a ∨ l.foldl max a ∈ l := by
  induction l generalizing a with
  | nil => exact Or.inl rfl
  | cons x t ih =>
    rcases ih (max a x) with h | h
    · rcases max_cases a x with ⟨hm, _⟩ | ⟨hm, _⟩
      · exact Or.inl (by rw [List.foldl_cons, h, hm])
      · exact Or.inr (by rw [List.foldl_cons, h, hm]; exact List.mem_cons_self x t)
    · exact Or.inr (List.mem_cons_of_mem x h)

lemma find?_append_single {α : Type} (p : α → Bool) (l : List α) (y : α)
    (h : l.find? p = none) (hy : p y = true) :
    (l ++ [y]).find? p = some y := by
  induction l with
  | nil => simp [List.find?, hy]
  | cons a t ih =>
    cases hpa : p a with
    | true => rw [List.find?_cons_of_pos _ hpa] at h; cases h
    | false =>
      have hpa' : ¬(p a = true) := by simp [hpa]
      rw [List.find?_cons_of_neg _ hpa'] at h
      rw [List.cons_append, List.find?_cons_of_neg _ hpa']
      exact ih h

lemma find?_map_upsert {α : Type} (key : α → String) (g : α → α)
    (cid : String) (hg : ∀ r, key (g r) = key r) (l : List α) :
    (l.map (fun r => if key r = cid then g r else r)).find?
      (fun r => key r = cid) =
    (l.find? (fun r => key r = cid)).map g := by
  induction l with
  | nil => rfl
  | cons a t ih =>
    by_cases ha : key a = cid
    · simp [List.find?, ha, hg]
    · simp [List.find?, ha, hg, ih]

lemma mem_pull_items (s : ServerState) (V : Int) (it : SyncItem) :
    it ∈ (handleSyncPull s V).items ↔
      (∃ p, p ∈ s.projects ∧ V < p.syncVersion ∧ it = pullProjectItem p) ∨
      (∃ t, t ∈ s.tasks ∧ V < t.syncVersion ∧ it = pullTaskItem t) := by
  simp only [handleSyncPull, List.mem_append, List.mem_map, List.mem_filter,
    decide_eq_true_eq]
  constructor
  · rintro (⟨p, ⟨hp, hv⟩, he⟩ | ⟨t, ⟨ht, hv⟩, he⟩)
    · exact Or.inl ⟨p, hp, hv, he.symm⟩
    · exact Or.inr ⟨t, ht, hv, he.symm⟩
  · rintro (⟨p, hp, hv, he⟩ | ⟨t, ht, hv, he⟩)
    · exact Or.inl ⟨p, ⟨hp, hv⟩, he.symm⟩
    · exact Or.inr ⟨t, ⟨ht, hv⟩, he.symm⟩

lemma pull_item_version_gt (s : ServerState) (V : Int) :
    ∀ it ∈ (handleSyncPull s V).items, V < it.syncVersion := by
  intro it hit
  rcases (mem_pull_items s V it).mp hit with ⟨p, _, hv, he⟩ | ⟨t, _, hv, he⟩
  · rw [he]; exact hv
  · rw [he]; exact hv

lemma pull_syncVersion_eq_foldl (s : ServerState) (V : Int) :
    (handleSyncPull s V).syncVersion =
      ((handleSyncPull s V).items.map (·.syncVersion)).foldl max V := by
  simp only [handleSyncPull]
  rw [List.foldl_map]
  congr 1
  funext m it
  rcases lt_or_ge m it.syncVersion with h | h
  · rw [if_pos h, max_eq_right h.le]
  · rw [if_neg (not_lt.mpr h), max_eq_left h]

/-- Claim C3: for the authenticated user and every since value `V`, GET /sync
returns exactly the project and task rows with `sync_version > V` (deleted
rows included, as no filter excludes them) and no other rows, and the
response's `sync_version` equals the maximum version among the returned
items, or `V` when no items are returned. -/
theorem pull_returns_exactly_rows_above_since :
    ∀ (s : ServerState) (V : Int),
      (∀ it : SyncItem, it ∈ (handleSyncPull s V).items ↔
          (∃ p, p ∈ s.projects ∧ V < p.syncVersion ∧ it = pullProjectItem p) ∨
          (∃ t, t ∈ s.tasks ∧ V < t.syncVersion ∧ it = pullTaskItem t)) ∧
      ((handleSyncPull s V).items = [] →
          (handleSyncPull s V).syncVersion = V) ∧
      (∀ it ∈ (handleSyncPull s V).items,
          it.syncVersion ≤ (handleSyncPull s V).syncVersion) ∧
      ((handleSyncPull s V).items ≠ [] →
          ∃ it ∈ (handleSyncPull s V).items,
            (handleSyncPull s V).syncVersion = it.syncVersion) := by
  intro s V
  refine ⟨mem_pull_items s V, ?_, ?_, ?_⟩
  · intro h
    rw [pull_syncVersion_eq_foldl, h]
    rfl
  · intro it hit
    rw [pull_syncVersion_eq_foldl]
    exact mem_le_foldl_max _ V it.syncVersion (List.mem_map_of_mem _ hit)
  · intro hne
    rw [pull_syncVersion_eq_foldl]
    rcases foldl_max_eq_init_or_mem
        ((handleSyncPull s V).items.map (·.syncVersion)) V with h | h
    · obtain ⟨it, hit⟩ := List.exists_mem_of_ne_nil _ hne
      have h1 : V < it.syncVersion := pull_item_version_gt s V it hit
      have h2 : it.syncVersion ≤ V := by
        rw [← h]
        exact mem_le_foldl_max _ V _ (List.mem_map_of_mem _ hit)
      exact absurd h1 (not_lt.mpr h2)
    · rcases List.mem_map.mp h with ⟨it, hit, he⟩
      exact ⟨it, hit, he.symm⟩

theorem pull_returns_exactly_rows_above_since_witness :
    (handleSyncPull emptyServer 5).items = [] ∧
    (handleSyncPull emptyServer 5).syncVersion = 5 :=
  ⟨by decide,
    (pull_returns_exactly_rows_above_since emptyServer 5).2.1 (by decide)⟩

lemma serverUpsertProject_eq_some (s : ServerState) (p : UpsertProjectParams)
    (hcoll : slugCollision s p = false) :
    ∃ q, serverUpsertProject s p = some q ∧
      q.2 = sqlMaxVersion (s.projects.map (·.syncVersion)) + 1 := by
  unfold serverUpsertProject
  have hc' : ¬(slugCollision s p = true) := by simp [hcoll]
  rw [if_neg hc']
  by_cases hex : s.projects.any (·.clientId = p.clientId)
  · rw [if_pos hex]
    exact ⟨_, rfl, rfl⟩
  · rw [if_neg hex]
    exact ⟨_, rfl, rfl⟩

/-- Claim C1 (amended): for a push item whose `(user, client_id)` row exists on the
server with stored timestamp `o`, a conflict is declared iff the request's
`client_updated_at` parses to a nonzero time and the stored timestamp is
non-NULL and strictly after it; an item whose `client_updated_at` is missing,
zero, or unparseable is never declared a conflict, and is upserted and echoed
in `updated` whenever its payload decodes and - for a project item - the
upsert does not violate the per-user slug uniqueness constraint; an item
with an undecodable payload, or a project item whose upsert fails the slug
uniqueness check, is skipped (the two deviations from the claim's "accepted
unconditionally"). -/
theorem push_conflict_exactly_when_stale :
    ∀ (s : ServerState) (out : SyncPushResponse) (item : SyncItem)
      (o : Option Int),
      serverStoredCUA s item = some o →
      ((conflictOf s item).isSome ↔
          clientTimeOf item.clientUpdatedAt ≠ 0 ∧
          ∃ t, o = some t ∧ clientTimeOf item.clientUpdatedAt < t) ∧
      (clientTimeOf item.clientUpdatedAt = 0 →
          conflictOf s item = none ∧
          (item.type = "project" → ∀ d, decode64 item.encryptedData = some d →
              (slugCollision s (projectUpsertParamsOf item d) = false →
                  ∃ v, (pushStep (s, out) item).2.updated =
                    out.updated ++ [{ item with syncVersion := v }]) ∧
              (slugCollision s (projectUpsertParamsOf item d) = true →
                  pushStep (s, out) item = (s, out))) ∧
          (item.type = "task" → (decode64 item.encryptedContent).isSome →
              ∃ v, (pushStep (s, out) item).2.updated =
                out.updated ++ [{ item with syncVersion := v }])) := by
  intro s out item o h
  unfold serverStoredCUA at h
  by_cases htask : item.type = "task"
  · rw [if_pos htask] at h
    obtain ⟨row, hrow, hcua⟩ := Option.map_eq_some'.mp h
    subst hcua
    constructor
    · simp only [conflictOf, htask, if_pos, hrow]
      cases hcu : row.clientUpdatedAt with
      | none => simp [hcu]
      | some st =>
        by_cases hzero : clientTimeOf item.clientUpdatedAt ≠ 0 ∧
            clientTimeOf item.clientUpdatedAt < st
        · simp [hcu, hzero]
        · simp only [if_neg hzero]
          simp [hcu]
          intro h1
          exact not_lt.mp (fun hlt => hzero ⟨h1, hlt⟩)
    · intro h0
      have hnc : conflictOf s item = none := by
        simp only [conflictOf, htask, if_pos, hrow]
        cases row.clientUpdatedAt with
        | none => rfl
        | some st => simp [h0]
      refine ⟨hnc, ?_, ?_⟩
      · intro hp
        rw [htask] at hp
        simp at hp
      · intro _ hd
        obtain ⟨d, hd'⟩ := Option.isSome_iff_exists.mp hd
        refine ⟨(serverUpsertTask s (taskUpsertParamsOf item d)).2, ?_⟩
        simp [pushStep, hnc, htask, hd']
  · by_cases hproj : item.type = "project"
    · rw [if_neg htask, if_pos hproj] at h
      obtain ⟨row, hrow, hcua⟩ := Option.map_eq_some'.mp h
      subst hcua
      constructor
      · simp only [conflictOf, htask, hproj, if_pos, if_neg, if_false, hrow]
        cases hcu : row.clientUpdatedAt with
        | none => simp [hcu]
        | some st =>
          by_cases hzero : clientTimeOf item.clientUpdatedAt ≠ 0 ∧
              clientTimeOf item.clientUpdatedAt < st
          · simp [hcu, hzero]
          · simp only [if_neg hzero]
            simp [hcu]
            intro h1
            exact not_lt.mp (fun hlt => hzero ⟨h1, hlt⟩)
      · intro h0
        have hnc : conflictOf s item = none := by
          simp only [conflictOf, htask, hproj, if_pos, if_neg, if_false, hrow]
          cases row.clientUpdatedAt with
          | none => rfl
          | some st => simp [h0]
        refine ⟨hnc, ?_, ?_⟩
        · intro _ d hd'
          constructor
          · intro hcoll
            obtain ⟨q, hq, _⟩ :=
              serverUpsertProject_eq_some s (projectUpsertParamsOf item d) hcoll
            refine ⟨q.2, ?_⟩
            simp [pushStep, hnc, hproj, htask, hd', hq]
          · intro hcoll
            have hq : serverUpsertProject s (projectUpsertParamsOf item d) =
                none := by
              unfold serverUpsertProject
              rw [if_pos hcoll]
            simp [pushStep, hnc, hproj, htask, hd', hq]
        · intro ht
          rw [hproj] at ht
          simp at ht
    · rw [if_neg htask, if_neg hproj] at h
      cases h

/-- Item of the C1 counterexample: no `client_updated_at` and an invalid
base64 payload. -/
def skippedItem : SyncItem :=
  { clientId := "p1"
    type := "project"
    encryptedData := .bad }

/-- Claim C1 (counterexample): an item whose `client_updated_at` is missing is NOT
accepted unconditionally: with an undecodable payload the push neither
upserts it nor returns it in `updated` (nor conflicts it) - the item is
skipped, leaving the server state unchanged. -/
theorem push_missing_timestamp_item_skipped_cex :
    handleSyncPush emptyServer [skippedItem] =
      (emptyServer, { updated := [], conflicts := [] }) := by
  decide

/-- Server state of the conflict demonstrations: one task whose stored
`client_updated_at` is 200. -/
def demoConflictServer : ServerState :=
  { projects := []
    tasks := [
      { clientId := "t1"
        projectId := "inbox"
        encryptedContent := .taskContent "srv"
        status := some "process"
        priority := 4
        syncVersion := 18
        clientUpdatedAt := some 200 }] }

/-- Push item of the conflict demonstrations: same client id, request
timestamp 100 (older than the stored 200). -/
def demoConflictItem : SyncItem :=
  { clientId := "t1"
    type := "task"
    projectId := "inbox"
    encryptedContent := .ok (.taskContent "cli")
    status := "process"
    priority := 4
    clientUpdatedAt := .stamp 100 }

theorem push_conflict_exactly_when_stale_witness :
    serverStoredCUA demoConflictServer demoConflictItem = some (some 200) ∧
    (conflictOf demoConflictServer demoConflictItem).isSome :=
  ⟨by decide,
    ((push_conflict_exactly_when_stale demoConflictServer ⟨[], []⟩
        demoConflictItem (some 200) (by decide)).1).mpr
      ⟨by decide, 200, rfl, by decide⟩⟩

/-- Claim C5: when the push handler declares a conflict for an item, it performs no
upsert for that item: the server state at that point of the batch is left
entirely unchanged (so the row keeps its `sync_version` and fields, and no
version is consumed), the only effect is appending the ConflictItem, and that
ConflictItem carries the current row's `sync_version` and its full current
data in the wire shape, plus the client's item. -/
theorem push_conflict_leaves_server_untouched :
    ∀ (s : ServerState) (out : SyncPushResponse) (item : SyncItem)
      (c : ConflictItem),
      conflictOf s item = some c →
      pushStep (s, out) item =
        (s, { out with conflicts := out.conflicts ++ [c] }) ∧
      ((∃ row, getTaskForConflict s item.clientId = some row ∧
          item.type = "task" ∧
          c.serverVersion = row.syncVersion ∧
          c.serverData = taskConflictData item.clientId row ∧
          c.clientData = item) ∨
       (∃ row, getProjectForConflict s item.clientId = some row ∧
          item.type = "project" ∧
          c.serverVersion = row.syncVersion ∧
          c.serverData = projectConflictData item.clientId row ∧
          c.clientData = item)) := by
  intro s out item c h
  refine ⟨by simp [pushStep, h], ?_⟩
  unfold conflictOf at h
  by_cases htask : item.type = "task"
  · rw [if_pos htask] at h
    cases hrow : getTaskForConflict s item.clientId with
    | none => simp [hrow] at h
    | some row =>
      simp only [hrow] at h
      cases hcu : row.clientUpdatedAt with
      | none => simp [hcu] at h
      | some st =>
        simp only [hcu] at h
        by_cases hz : clientTimeOf item.clientUpdatedAt ≠ 0 ∧
            clientTimeOf item.clientUpdatedAt < st
        · rw [if_pos hz] at h
          have hc := Option.some_inj.mp h
          rw [← hc]
          exact Or.inl ⟨row, rfl, htask, rfl, rfl, rfl⟩
        · rw [if_neg hz] at h
          exact Option.noConfusion h
  · rw [if_neg htask] at h
    by_cases hproj : item.type = "project"
    · rw [if_pos hproj] at h
      cases hrow : getProjectForConflict s item.clientId with
      | none => simp [hrow] at h
      | some row =>
        simp only [hrow] at h
        cases hcu : row.clientUpdatedAt with
        | none => simp [hcu] at h
        | some st =>
          simp only [hcu] at h
          by_cases hz : clientTimeOf item.clientUpdatedAt ≠ 0 ∧
              clientTimeOf item.clientUpdatedAt < st
          · rw [if_pos hz] at h
            have hc := Option.some_inj.mp h
            rw [← hc]
            exact Or.inr ⟨row, rfl, hproj, rfl, rfl, rfl⟩
          · rw [if_neg hz] at h
            exact Option.noConfusion h
    · rw [if_neg hproj] at h
      exact Option.noConfusion h

/-- ConflictItem the demo conflict produces: the stored row at version 18 in
the wire shape. -/
def demoConflictC : ConflictItem :=
  { clientId := "t1"
    type := "task"
    serverVersion := 18
    serverData :=
      { id := "t1"
        clientId := "t1"
        type := "task"
        projectId := "inbox"
        encryptedContent := .ok (.taskContent "srv")
        status := "process"
        priority := 4
        dueDate := ""
        syncVersion := 18
        deleted := false }
    clientData := demoConflictItem }

theorem push_conflict_leaves_server_untouched_witness :
    conflictOf demoConflictServer demoConflictItem = some demoConflictC ∧
    pushStep (demoConflictServer, ⟨[], []⟩) demoConflictItem =
      (demoConflictServer,
        { updated := [], conflicts := [demoConflictC] }) :=
  ⟨by decide,
    (push_conflict_leaves_server_untouched demoConflictServer ⟨[], []⟩
        demoConflictItem demoConflictC (by decide)).1⟩

/-- Task item of the version-monotonicity counterexample. -/
def monoTaskItem : SyncItem :=
  { clientId := "tA"
    type := "task"
    projectId := "inbox"
    encryptedContent := .ok (.taskContent "x")
    status := "process"
    priority := 4 }

/-- Project item of the version-monotonicity counterexample. -/
def monoProjectItem : SyncItem :=
  { clientId := "pA"
    type := "project"
    slug := "work"
    name := "Work"
    encryptedData := .ok (.projMeta "Work" "") }

/-- Claim C2: the upsert queries compute `COALESCE(MAX(sync_version), 0) + 1`
within the item's own table only, so versions are NOT strictly increasing
across projects and tasks of one user: pushing a task to a fresh user
assigns version 1, and a subsequent project push also assigns version 1,
which is not strictly greater than the task's version previously assigned to
the same user. -/
theorem upsert_versions_not_monotonic_across_kinds :
    ((handleSyncPush emptyServer [monoTaskItem]).2.updated.map
        (·.syncVersion)) = [1] ∧
    ((handleSyncPush (handleSyncPush emptyServer [monoTaskItem]).1
        [monoProjectItem]).2.updated.map (·.syncVersion)) = [1] := by
  decide

/-- Local store of the merge-conflict scenario: one dirty task edited locally
at time 100. -/
def mergeDemoLocal : LocalStore :=
  { projects := []
    tasks := [
      { id := "t1"
        projectId := "inbox"
        content := "local edit"
        status := some "process"
        priority := 4
        createdAt := .stamp 1
        updatedAt := .stamp 100 }] }

/-- Server state of the merge-conflict scenario: the same task updated by
another replica at time 200, at version 18 (above the local replica's last
seen version 10). -/
def mergeDemoServer : ServerState :=
  { projects := []
    tasks := [
      { clientId := "t1"
        projectId := "inbox"
        encryptedContent := .taskContent "server edit"
        status := some "process"
        priority := 4
        syncVersion := 18
        clientUpdatedAt := some 200 }] }

/-- Claim C4: after a merge sync whose push declared a conflict on `t1`, the claim
says the row is still dirty and still holds its local value; the code's pull
phase instead overwrites the conflicted row with the server's fields and
server version, clearing dirty: the sync result lists `t1` as conflicted,
yet the local row ends with `sync_version = 18` (clean, not NULL) and
content "server edit" instead of "local edit". -/
theorem merge_sync_clobbers_conflicted_row :
    ((syncMerge mergeDemoLocal mergeDemoServer 10
        (.stamp 300)).2.2.2.2.conflicts.map (·.clientId)) = ["t1"] ∧
    ((syncMerge mergeDemoLocal mergeDemoServer 10 (.stamp 300)).1.tasks.map
        (fun t => (t.id, t.syncVersion, t.content))) =
      [("t1", some 18, "server edit")] := by
  decide

/-- Local store of the pulled-deletion scenario: one clean task at version
17, not deleted. -/
def deleteDemoLocal : LocalStore :=
  { projects := []
    tasks := [
      { id := "t1"
        projectId := "inbox"
        content := "buy milk"
        status := some "process"
        priority := 4
        createdAt := .stamp 1
        updatedAt := .stamp 50
        syncVersion := some 17 }] }

/-- Server state of the pulled-deletion scenario: the same task soft-deleted
on the server at version 20. -/
def deleteDemoServer : ServerState :=
  { projects := []
    tasks := [
      { clientId := "t1"
        projectId := "inbox"
        encryptedContent := .taskContent "buy milk"
        status := some "process"
        priority := 4
        syncVersion := 20
        deleted := true
        clientUpdatedAt := some 60 }] }

/-- Claim C6: the server's pull response carries the task with `deleted = true`,
but pullChanges never reads the item's deleted flag: the local row is
overwritten to the server version yet keeps `deleted_at` NULL, so the
deletion is NOT applied locally, contrary to the claim. -/
theorem pull_does_not_apply_deletion_locally :
    ((handleSyncPull deleteDemoServer 17).items.map
        (fun i => (i.clientId, i.deleted))) = [("t1", true)] ∧
    ((pullChanges deleteDemoLocal deleteDemoServer 17 (.stamp 100)).1.tasks.map
        (fun t => (t.id, t.deletedAt, t.syncVersion))) =
      [("t1", (none : Option TimeField), some 20)] := by
  decide

lemma trigger_pending_fixed (f : ClientFlags) (a : AutoSyncState)
    (h : a.pending = true) : triggerSync f a = a := by
  simp [triggerSync, h]

/-- Claim C7: TriggerSync is a no-op when auto-sync is not permitted, and while a
debounced sync is pending a further trigger starts no new timer; hence any
number of trigger calls falling inside one debounce window (during which the
timer cannot yet have fired, so the window is a pure sequence of trigger
steps) starts at most one debounce timer, i.e. initiates at most one sync. -/
theorem trigger_sync_debounce_coalesces :
    ∀ (f : ClientFlags) (a : AutoSyncState) (n : Nat),
      (canAutoSync f = false → triggerSync f a = a) ∧
      (a.pending = true → triggerSync f a = a) ∧
      ((triggerSync f)^[n] a).timersStarted ≤
        a.timersStarted + (if a.pending then 0 else 1) := by
  intro f a n
  refine ⟨fun hc => by simp [triggerSync, hc], trigger_pending_fixed f a, ?_⟩
  cases hp : a.pending with
  | true =>
    rw [Function.iterate_fixed (trigger_pending_fixed f a hp)]
    simp
  | false =>
    rcases Bool.eq_false_or_eq_true (canAutoSync f) with hc | hc
    · cases n with
      | zero => simp
      | succ m =>
        rw [Function.iterate_succ_apply]
        have hstep : triggerSync f a =
            { pending := true, timersStarted := a.timersStarted + 1 } := by
          simp [triggerSync, hc, hp]
        rw [hstep, Function.iterate_fixed (trigger_pending_fixed f _ rfl)]
        simp
    · have hfix : triggerSync f a = a := by simp [triggerSync, hc]
      rw [Function.iterate_fixed hfix]
      simp

theorem trigger_sync_debounce_coalesces_witness :
    canAutoSync { loggedIn := false, hasSyncedOnce := true } = false ∧
    triggerSync { loggedIn := false, hasSyncedOnce := true }
      { pending := false, timersStarted := 0 } =
      { pending := false, timersStarted := 0 } ∧
    AutoSyncState.pending { pending := true, timersStarted := 3 } = true ∧
    triggerSync { loggedIn := true, hasSyncedOnce := true }
      { pending := true, timersStarted := 3 } =
      { pending := true, timersStarted := 3 } ∧
    ((triggerSync { loggedIn := true, hasSyncedOnce := true })^[5]
        { pending := false, timersStarted := 0 }).timersStarted ≤
      AutoSyncState.timersStarted { pending := false, timersStarted := 0 } +
        (if AutoSyncState.pending { pending := false, timersStarted := 0 }
          then 0 else 1) :=
  ⟨by decide,
    (trigger_sync_debounce_coalesces { loggedIn := false, hasSyncedOnce := true }
        { pending := false, timersStarted := 0 } 0).1 (by decide),
    by decide,
    (trigger_sync_debounce_coalesces { loggedIn := true, hasSyncedOnce := true }
        { pending := true, timersStarted := 3 } 0).2.1 (by decide),
    (trigger_sync_debounce_coalesces { loggedIn := true, hasSyncedOnce := true }
        { pending := false, timersStarted := 0 } 5).2.2⟩

/-- Claim C8 (counterexample): on a fresh replica the migrations seed the inbox
with `sync_version` NULL (the insert lists no `sync_version` and the column
has no default), so the seeded inbox is dirty and IS returned by the
dirty-rows query that feeds the next push - the claim's "starts at 0 and is
considered synced, not included in the next push" is false. -/
theorem inbox_seeded_dirty_cex :
    ((migrateLocal (.stamp 0) emptyLocal).projects.map
        (fun p => (p.id, p.syncVersion))) = [("inbox", (none : Option Int))] ∧
    ((getProjectsToSync (migrateLocal (.stamp 0) emptyLocal)).map (·.id)) =
      ["inbox"] := by
  decide

/-- Claim C8 (amended): every replica seeds the synthetic inbox project when it is
not already present (and leaves the store unchanged when it is), but the
seeding marks the inbox dirty: its `sync_version` is NULL, so the freshly
seeded inbox IS included in the next push of dirty rows. -/
theorem inbox_seeded_when_absent_but_dirty :
    ∀ (now : TimeField) (st : LocalStore),
      ((∀ p ∈ st.projects, p.id ≠ "inbox") →
          ∃ q, q ∈ (seedInbox now st).projects ∧ q.id = "inbox" ∧
            q.syncVersion = none ∧
            q ∈ getProjectsToSync (seedInbox now st)) ∧
      ((∃ p ∈ st.projects, p.id = "inbox") → seedInbox now st = st) := by
  intro now st
  constructor
  · intro h
    have hany : st.projects.any (·.id = "inbox") = false := by
      rw [List.any_eq_false]
      intro p hp
      simp [h p hp]
    refine ⟨{ id := "inbox"
              slug := "inbox"
              name := "Inbox"
              color := some "#6C757D"
              createdAt := now
              updatedAt := now }, ?_, rfl, rfl, ?_⟩
    · simp [seedInbox, hany]
    · simp [getProjectsToSync, seedInbox, hany, List.mem_filter]
  · rintro ⟨p, hp, hid⟩
    have hany : st.projects.any (·.id = "inbox") = true :=
      List.any_eq_true.mpr ⟨p, hp, by simp [hid]⟩
    simp [seedInbox, hany]

theorem inbox_seeded_when_absent_but_dirty_witness :
    getProjectsToSync (seedInbox (.stamp 0) emptyLocal) ≠ [] := by
  obtain ⟨q, _, _, _, hq⟩ :=
    (inbox_seeded_when_absent_but_dirty (.stamp 0) emptyLocal).1
      (by simp [emptyLocal])
  exact List.ne_nil_of_mem hq

lemma goParseUintLoop_range_val (l : List Char) :
    ∀ n, (goParseUintLoop l n).2 = .range →
      (goParseUintLoop l n).1 = maxUint64 := by
  induction l with
  | nil =>
    intro n h
    simp [goParseUintLoop] at h
  | cons c t ih =>
    intro n h
    simp only [goParseUintLoop] at h ⊢
    cases hd : digitVal c with
    | none => simp [hd] at h
    | some d =>
      simp only [hd] at h ⊢
      by_cases h10 : 10 ≤ d
      · simp [h10] at h
      · simp only [if_neg h10] at h ⊢
        by_cases hcut : uintCutoff ≤ n
        · simp [hcut]
        · simp only [if_neg hcut] at h ⊢
          by_cases hmax : maxUint64 < n * 10 + d
          · simp [hmax]
          · simp only [if_neg hmax] at h ⊢
            exact ih (n * 10 + d) h

lemma goParseUintLoop_synErr_val (l : List Char) :
    ∀ n, (goParseUintLoop l n).2 = .synErr →
      (goParseUintLoop l n).1 = 0 := by
  induction l with
  | nil =>
    intro n h
    simp [goParseUintLoop] at h
  | cons c t ih =>
    intro n h
    simp only [goParseUintLoop] at h ⊢
    cases hd : digitVal c with
    | none => simp [hd]
    | some d =>
      simp only [hd] at h ⊢
      by_cases h10 : 10 ≤ d
      · simp [h10]
      · simp only [if_neg h10] at h ⊢
        by_cases hcut : uintCutoff ≤ n
        · simp [hcut] at h
        · simp only [if_neg hcut] at h ⊢
          by_cases hmax : maxUint64 < n * 10 + d
          · simp [hmax] at h
          · simp only [if_neg hmax] at h ⊢
            exact ih (n * 10 + d) h

lemma goParseUint64_range_val (l : List Char)
    (h : (goParseUint64 l).2 = .range) : (goParseUint64 l).1 = maxUint64 := by
  cases l with
  | nil => simp [goParseUint64] at h
  | cons c t => exact goParseUintLoop_range_val (c :: t) 0 h

lemma goParseUint64_synErr_val (l : List Char)
    (h : (goParseUint64 l).2 = .synErr) : (goParseUint64 l).1 = 0 := by
  cases l with
  | nil => rfl
  | cons c t => exact goParseUintLoop_synErr_val (c :: t) 0 h

lemma int64Clamp_synErr_val (neg : Bool) (r : Nat × ParseErr)
    (h : (int64Clamp neg r).2 = .synErr) : (int64Clamp neg r).1 = 0 := by
  unfold int64Clamp at h ⊢
  by_cases h1 : r.2 = .synErr
  · rw [if_pos h1]
  · rw [if_neg h1] at h ⊢
    by_cases h2 : ¬(neg = true) ∧ int64Cutoff ≤ r.1
    · rw [if_pos h2] at h
      simp at h
    · rw [if_neg h2] at h ⊢
      by_cases h3 : (neg = true) ∧ int64Cutoff < r.1
      · rw [if_pos h3] at h
        simp at h
      · rw [if_neg h3] at h
        simp at h
        exact absurd h h1

lemma int64Clamp_range_val (neg : Bool) (r : Nat × ParseErr)
    (hr : r.2 = .range → r.1 = maxUint64)
    (h : (int64Clamp neg r).2 = .range) :
    (int64Clamp neg r).1 = (int64Cutoff : Int) - 1 ∨
    (int64Clamp neg r).1 = -(int64Cutoff : Int) := by
  unfold int64Clamp at h ⊢
  by_cases h1 : r.2 = .synErr
  · rw [if_pos h1] at h
    simp at h
  · rw [if_neg h1] at h ⊢
    by_cases h2 : ¬(neg = true) ∧ int64Cutoff ≤ r.1
    · rw [if_pos h2]
      exact Or.inl rfl
    · rw [if_neg h2] at h ⊢
      by_cases h3 : (neg = true) ∧ int64Cutoff < r.1
      · rw [if_pos h3]
        exact Or.inr rfl
      · exfalso
        rw [if_neg h3] at h
        simp at h
        have hv := hr h
        cases hneg : neg with
        | false =>
          exact h2 ⟨by simp [hneg], by
            rw [hv]; norm_num [int64Cutoff, maxUint64]⟩
        | true =>
          exact h3 ⟨hneg, by
            rw [hv]; norm_num [int64Cutoff, maxUint64]⟩

lemma goParseInt64E_synErr_val (s : String) :
    (goParseInt64E s).2 = .synErr → (goParseInt64E s).1 = 0 := by
  unfold goParseInt64E goParseInt64L
  cases s.toList with
  | nil => intro _; rfl
  | cons c rest =>
    exact int64Clamp_synErr_val (signSplit c rest).1
      (goParseUint64 (signSplit c rest).2)

lemma goParseInt64E_range_val (s : String) :
    (goParseInt64E s).2 = .range →
      (goParseInt64E s).1 = (int64Cutoff : Int) - 1 ∨
      (goParseInt64E s).1 = -(int64Cutoff : Int) := by
  unfold goParseInt64E goParseInt64L
  cases s.toList with
  | nil => intro h; cases h
  | cons c rest =>
    exact int64Clamp_range_val (signSplit c rest).1
      (goParseUint64 (signSplit c rest).2)
      (goParseUint64_range_val (signSplit c rest).2)

/-- Server state of the malformed-since counterexample: one project at
version 1. -/
def overflowPullServer : ServerState :=
  { projects := [
      { clientId := "p1"
        slug := "work"
        name := "Work"
        syncVersion := 1 }]
    tasks := [] }

/-- Claim C9 (counterexample): the since value "9223372036854775808" fails to
parse as an int64 (range error), but the discarded-error value is
`9223372036854775807`, not 0: the pull returns NO rows instead of the full
history, falsifying "a since value that fails to parse is silently treated
as 0". -/
theorem since_overflow_not_treated_as_zero_cex :
    goParseInt64 "9223372036854775808" = 9223372036854775807 ∧
    (handleSyncPullQ overflowPullServer "9223372036854775808").items = [] ∧
    ((handleSyncPullQ overflowPullServer "0").items.map (·.clientId)) =
      ["p1"] := by
  constructor
  · decide
  · constructor
    · decide
    · decide

/-- Claim C9 (amended): a missing `since` parameter is treated as 0, and a
syntactically malformed `since` is silently treated as 0 (returning the full
history of rows with `sync_version > 0`); but a `since` that parses and
overflows int64 is clamped to 9223372036854775807 (or to
-9223372036854775808 when negative), not 0; in every case the parse error is
discarded and no error response is produced. -/
theorem since_param_parse_behavior :
    ∀ (s : ServerState) (v : String),
      parseSinceParam "" = 0 ∧
      ((goParseInt64E v).2 = .synErr →
          handleSyncPullQ s v = handleSyncPull s 0) ∧
      ((goParseInt64E v).2 = .range →
          (goParseInt64 v = 9223372036854775807 ∨
           goParseInt64 v = -9223372036854775808) ∧
          handleSyncPullQ s v = handleSyncPull s (goParseInt64 v)) := by
  intro s v
  refine ⟨rfl, ?_, ?_⟩
  · intro h
    unfold handleSyncPullQ parseSinceParam
    by_cases hv : v = ""
    · rw [if_pos hv]
    · rw [if_neg hv]
      unfold goParseInt64
      rw [goParseInt64E_synErr_val v h]
  · intro h
    constructor
    · rcases goParseInt64E_range_val v h with h1 | h1
      · left
        unfold goParseInt64
        rw [h1]
        norm_num [int64Cutoff]
      · right
        unfold goParseInt64
        rw [h1]
        norm_num [int64Cutoff]
    · unfold handleSyncPullQ parseSinceParam
      by_cases hv : v = ""
      · exfalso
        rw [hv] at h
        cases h
      · rw [if_neg hv]

theorem since_param_parse_behavior_witness :
    (goParseInt64E "12x").2 = .synErr ∧
    handleSyncPullQ emptyServer "12x" = handleSyncPull emptyServer 0 :=
  ⟨by decide, (since_param_parse_behavior emptyServer "12x").2.1 (by decide)⟩

lemma find?_after_upsertProject (s : ServerState) (p : UpsertProjectParams)
    (hcoll : slugCollision s p = false) :
    ∃ q, serverUpsertProject s p = some q ∧
      ∃ r, (q.1.projects.find? (fun x => x.clientId = p.clientId)) = some r ∧
        r.slug = p.slug ∧ r.name = p.name := by
  unfold serverUpsertProject
  have hc' : ¬(slugCollision s p = true) := by simp [hcoll]
  rw [if_neg hc']
  by_cases hex : s.projects.any (·.clientId = p.clientId)
  · rw [if_pos hex]
    have hfind : (s.projects.find? (fun x => x.clientId = p.clientId)).isSome := by
      rw [List.find?_isSome]
      obtain ⟨x, hx, hpx⟩ := List.any_eq_true.mp hex
      exact ⟨x, hx, hpx⟩
    obtain ⟨r0, hr0⟩ := Option.isSome_iff_exists.mp hfind
    refine ⟨_, rfl, ?_⟩
    dsimp only
    rw [find?_map_upsert (fun x : ServerProject => x.clientId)
        (fun r => { r with
          slug := p.slug
          name := p.name
          encryptedData := p.encryptedData
          deleted := p.deleted
          syncVersion := sqlMaxVersion (s.projects.map (·.syncVersion)) + 1
          clientUpdatedAt := p.clientUpdatedAt })
        p.clientId (fun _ => rfl) s.projects, hr0]
    exact ⟨_, rfl, rfl, rfl⟩
  · rw [if_neg hex]
    have hnone : s.projects.find? (fun x => x.clientId = p.clientId) = none := by
      rw [List.find?_eq_none]
      intro x hx hpx
      exact hex (List.any_eq_true.mpr ⟨x, hx, hpx⟩)
    refine ⟨_, rfl, ?_⟩
    dsimp only
    rw [find?_append_single _ _ _ hnone (by simp)]
    exact ⟨_, rfl, rfl, rfl⟩

lemma find?_after_upsertTask (s : ServerState) (p : UpsertTaskParams) :
    ∃ r, ((serverUpsertTask s p).1.tasks.find?
        (fun x => x.clientId = p.clientId)) = some r ∧
      r.status = p.status := by
  unfold serverUpsertTask
  by_cases hex : s.tasks.any (·.clientId = p.clientId)
  · rw [if_pos hex]
    have hfind : (s.tasks.find? (fun x => x.clientId = p.clientId)).isSome := by
      rw [List.find?_isSome]
      obtain ⟨x, hx, hpx⟩ := List.any_eq_true.mp hex
      exact ⟨x, hx, hpx⟩
    obtain ⟨r0, hr0⟩ := Option.isSome_iff_exists.mp hfind
    dsimp only
    rw [find?_map_upsert (fun x : ServerTask => x.clientId)
        (fun r => { r with
          projectId := p.projectId
          encryptedContent := p.encryptedContent
          status := p.status
          priority := p.priority
          dueDate := p.dueDate
          deleted := p.deleted
          syncVersion := sqlMaxVersion (s.tasks.map (·.syncVersion)) + 1
          clientUpdatedAt := p.clientUpdatedAt })
        p.clientId (fun _ => rfl) s.tasks, hr0]
    exact ⟨_, rfl, rfl⟩
  · rw [if_neg hex]
    have hnone : s.tasks.find? (fun x => x.clientId = p.clientId) = none := by
      rw [List.find?_eq_none]
      intro x hx hpx
      exact hex (List.any_eq_true.mpr ⟨x, hx, hpx⟩)
    dsimp only
    rw [find?_append_single _ _ _ hnone (by simp)]
    exact ⟨_, rfl, rfl⟩

/-- Claim C10 (amended): for every push item accepted as a project (no conflict,
payload decodes, and the upsert does not violate the per-user slug
uniqueness constraint - a violating upsert fails and stores nothing), the
stored row's slug is the item's slug with fallback to its client id, and the
stored name is the item's name with fallback to that slug; for every item
accepted as a task the stored status falls back to "process"; hence,
provided the item's `client_id` is nonempty, no empty slug, name, or status
is ever stored (with an empty `client_id` an empty slug can be stored, which
is the one deviation from the claim as stated). -/
theorem push_fallbacks_store_nonempty_fields :
    ∀ (s : ServerState) (out : SyncPushResponse) (item : SyncItem),
      conflictOf s item = none →
      (item.type = "project" → ∀ d, decode64 item.encryptedData = some d →
          slugCollision s (projectUpsertParamsOf item d) = false →
          ∃ r, (pushStep (s, out) item).1.projects.find?
              (fun x => x.clientId = item.clientId) = some r ∧
            r.slug = (if item.slug = "" then item.clientId else item.slug) ∧
            r.name = (if item.name = ""
                then (if item.slug = "" then item.clientId else item.slug)
                else item.name) ∧
            (item.clientId ≠ "" → r.slug ≠ "" ∧ r.name ≠ "")) ∧
      (item.type = "task" → ∀ d, decode64 item.encryptedContent = some d →
          ∃ r, (pushStep (s, out) item).1.tasks.find?
              (fun x => x.clientId = item.clientId) = some r ∧
            r.status = some (if item.status = "" then "process"
              else item.status) ∧
            r.status ≠ some "") := by
  intro s out item hnc
  constructor
  · intro hp d hd hcoll
    obtain ⟨q, hq, r, hr, hslug, hname⟩ :=
      find?_after_upsertProject s (projectUpsertParamsOf item d) hcoll
    have hps : (pushStep (s, out) item).1 = q.1 := by
      simp [pushStep, hnc, hp, hd, hq]
    rw [hps]
    have hcid : (projectUpsertParamsOf item d).clientId = item.clientId := rfl
    have hslug' : (projectUpsertParamsOf item d).slug =
        (if item.slug = "" then item.clientId else item.slug) := rfl
    have hname' : (projectUpsertParamsOf item d).name =
        (if item.name = ""
          then (if item.slug = "" then item.clientId else item.slug)
          else item.name) := rfl
    rw [hcid] at hr
    refine ⟨r, hr, by rw [hslug, hslug'], by rw [hname, hname'], ?_⟩
    intro hne
    constructor
    · rw [hslug, hslug']
      by_cases hs : item.slug = ""
      · rw [if_pos hs]; exact hne
      · rw [if_neg hs]; exact hs
    · rw [hname, hname']
      by_cases hn : item.name = ""
      · rw [if_pos hn]
        by_cases hs : item.slug = ""
        · rw [if_pos hs]; exact hne
        · rw [if_neg hs]; exact hs
      · rw [if_neg hn]; exact hn
  · intro ht d hd
    have hps : (pushStep (s, out) item).1 =
        (serverUpsertTask s (taskUpsertParamsOf item d)).1 := by
      by_cases hp : item.type = "project"
      · rw [ht] at hp; simp at hp
      · simp [pushStep, hnc, ht, hp, hd]
    rw [hps]
    obtain ⟨r, hr, hstatus⟩ :=
      find?_after_upsertTask s (taskUpsertParamsOf item d)
    have hcid : (taskUpsertParamsOf item d).clientId = item.clientId := rfl
    have hstatus' : (taskUpsertParamsOf item d).status =
        some (if item.status = "" then "process" else item.status) := rfl
    rw [hcid] at hr
    refine ⟨r, hr, by rw [hstatus, hstatus'], ?_⟩
    rw [hstatus, hstatus']
    by_cases hs : item.status = ""
    · rw [if_pos hs]
      simp
    · rw [if_neg hs]
      simp [hs]

/-- Push item of the C10 counterexample: an accepted project item whose
`client_id`, slug, and name are all empty. -/
def emptyIdItem : SyncItem :=
  { clientId := ""
    type := "project"
    encryptedData := .ok (.projMeta "" "") }

/-- Claim C10 (counterexample): an accepted project item with empty `client_id`
and empty slug is stored with slug = client_id = "" and name = slug = "":
the server does store empty identifying fields, falsifying the claim's
blanket "never stores empty identifying fields". -/
theorem push_stores_empty_slug_for_empty_client_id_cex :
    ((handleSyncPush emptyServer [emptyIdItem]).1.projects.map
        (fun p => (p.clientId, p.slug, p.name))) = [("", "", "")] ∧
    (handleSyncPush emptyServer [emptyIdItem]).2.updated.length = 1 := by
  decide

/-- Push item of the C10 witness: an accepted project item with nonempty
client id and empty slug and name. -/
def fallbackDemoItem : SyncItem :=
  { clientId := "proj-1"
    type := "project"
    encryptedData := .ok (.projMeta "" "") }

theorem push_fallbacks_store_nonempty_fields_witness :
    conflictOf emptyServer fallbackDemoItem = none ∧
    ((pushStep (emptyServer, ⟨[], []⟩) fallbackDemoItem).1.projects.find?
        (fun x => x.clientId = fallbackDemoItem.clientId)).isSome := by
  refine ⟨by decide, ?_⟩
  obtain ⟨r, hr, _, _, _⟩ :=
    (push_fallbacks_store_nonempty_fields emptyServer ⟨[], []⟩
        fallbackDemoItem (by decide)).1 rfl (.projMeta "" "") rfl (by decide)
  rw [hr]
  rfl

end Irontask
